import Mathlib

set_option maxRecDepth 16384

/-!
Shallow embedding of the agent-roundtable ("Agent Forum") core: the response
parser, the model-backend adapter's failure handling, the fixed-window rate
limiter, the conversation store, and the turn engine
(`src/services/llm-service.ts`, `src/services/agent-service.ts`,
`src/db/database.ts`, plus the dual-provider variant of the LLM service).

Modelling conventions:
* JavaScript strings are Lean `String`s; the regex operations used by the
  parser are implemented explicitly over `List Char` with the exact
  backtracking-free semantics the concrete patterns have.
* `Date.now()` results and `setTimeout` durations are `Nat` milliseconds,
  passed in explicitly (injectable clock); timers are idealized as exact.
* `uuidv4()` is modelled as a fresh-id counter threaded through the store
  (the only property the code relies on is freshness).
* The network dispatch inside the adapter is abstracted as an
  `Except String (Option String)` argument: `.error e` models a thrown or
  rejected provider call, `.ok none` models a response with absent content,
  `.ok (some s)` a response with content `s`.
-/

/-- ASCII lower-casing of one character, the effect of a JavaScript `/i` flag
on the ASCII patterns used by the parser. -/
def lowerCh (c : Char) : Char :=
  if 'A' ≤ c ∧ c ≤ 'Z' then Char.ofNat (c.toNat + 32) else c

/-- The JavaScript `\s` class, restricted to the ASCII whitespace characters
(space, tab, line feed, vertical tab, form feed, carriage return). -/
def isWs (c : Char) : Bool :=
  c == ' ' || c == '\t' || c == '\n' || c == '\x0b' || c == '\x0c' || c == '\r'

/-- Does `text` start with `pat`, comparing case-insensitively? -/
def matchesPrefixCI : List Char → List Char → Bool
  | [], _ => true
  | _ :: _, [] => false
  | p :: ps, c :: cs => lowerCh p == lowerCh c && matchesPrefixCI ps cs

/-- Index of the first case-insensitive occurrence of `pat` in the text
(the position at which a JavaScript regex starting with the literal `pat`
and flag `/i` begins its leftmost match). -/
def findCI (pat : List Char) : List Char → Option Nat
  | [] => if matchesPrefixCI pat [] then some 0 else none
  | c :: cs =>
    if matchesPrefixCI pat (c :: cs) then some 0
    else (findCI pat cs).map (· + 1)

/-- `String.prototype.trim`: drop whitespace from both ends. -/
def trimList (cs : List Char) : List Char :=
  ((cs.dropWhile isWs).reverse.dropWhile isWs).reverse

/-- `[A-Z]` under the `/i` flag: any ASCII letter. -/
def isLetterCI (c : Char) : Bool :=
  ('A' ≤ c && c ≤ 'Z') || ('a' ≤ c && c ≤ 'z')

/-- `[A-Z]` with no flag: an upper-case ASCII letter. -/
def isLetterCS (c : Char) : Bool :=
  'A' ≤ c && c ≤ 'Z'

/-- One repetition of the group `(User [A-Z]+:\s*)` under `/i`:
`"User "` case-insensitively, one or more ASCII letters, a colon, then
maximal whitespace.  Returns the rest of the text on a match.  (The greedy
`[A-Z]+` followed by the mandatory `:` is equivalent to taking the maximal
letter run, since a shorter run would be followed by a letter, not `:`.) -/
def matchNameRepCI (cs : List Char) : Option (List Char) :=
  if matchesPrefixCI "User ".toList cs then
    let rest := cs.drop 5
    let letters := rest.takeWhile isLetterCI
    if letters.isEmpty then none
    else
      match rest.drop letters.length with
      | ':' :: rest2 => some (rest2.dropWhile isWs)
      | _ => none
  else none

/-- One case-sensitive repetition of the group `(User [A-Z]+:\s*)`. -/
def matchNameRepCS (cs : List Char) : Option (List Char) :=
  if "User ".toList.isPrefixOf cs then
    let rest := cs.drop 5
    let letters := rest.takeWhile isLetterCS
    if letters.isEmpty then none
    else
      match rest.drop letters.length with
      | ':' :: rest2 => some (rest2.dropWhile isWs)
      | _ => none
  else none

/-- Apply `step` zero or more times (greedily), bounded by `fuel`.  Each
successful `step` consumes at least the 7 characters `User X:`, so any
`fuel ≥ length` realizes the unbounded greedy `+`. -/
def stripRepsAux (step : List Char → Option (List Char)) : Nat → List Char → List Char
  | 0, cs => cs
  | fuel + 1, cs =>
    match step cs with
    | some rest => stripRepsAux step fuel rest
    | none => cs

/-- `replace(/^(User [A-Z]+:\s*)+/i, '')`: remove a maximal non-empty run of
name-prefix repetitions anchored at the start of the text. -/
def stripNameRepsCI (cs : List Char) : List Char :=
  stripRepsAux matchNameRepCI (cs.length + 1) cs

/-- `replace(/^(User [A-Z]+:\s*)+/g, '')` (case-sensitive; with `^` and no
`/m` the global flag can only ever produce the one anchored match). -/
def stripNameRepsCS (cs : List Char) : List Char :=
  stripRepsAux matchNameRepCS (cs.length + 1) cs

/-- A match of `(User [A-Z]+:\s*){2,}` (case-sensitive) at the current
position: two mandatory repetitions followed by greedily consumed further
repetitions.  Returns the rest of the text after the whole match. -/
def matchReps2 (cs : List Char) : Option (List Char) :=
  match matchNameRepCS cs with
  | none => none
  | some r1 =>
    match matchNameRepCS r1 with
    | none => none
    | some r2 => some (stripRepsAux matchNameRepCS (r2.length + 1) r2)

/-- `replace(/(User [A-Z]+:\s*){2,}/g, '')`: scan left to right, deleting
every (leftmost, non-overlapping, greedy) run of two or more case-sensitive
name-prefix repetitions. -/
def stripMidRunsAux : Nat → List Char → List Char
  | 0, cs => cs
  | _ + 1, [] => []
  | fuel + 1, c :: cs =>
    match matchReps2 (c :: cs) with
    | some rest => stripMidRunsAux fuel rest
    | none => c :: stripMidRunsAux fuel cs

/-- Entry point of the global mid-text replacement with sufficient fuel. -/
def stripMidRuns (cs : List Char) : List Char :=
  stripMidRunsAux (cs.length + 1) cs

/-- `{publicResponse, privateThoughts}` as returned by the adapter. -/
structure AgentResponse where
  publicResponse : String
  privateThoughts : String
deriving Repr, DecidableEq

/-- `"PUBLIC RESPONSE:"` as a character list. -/
def pubHeader : List Char := "PUBLIC RESPONSE:".toList

/-- `"PRIVATE THOUGHTS:"` as a character list. -/
def privHeader : List Char := "PRIVATE THOUGHTS:".toList

/-- Capture group of `/PUBLIC RESPONSE:\s*([\s\S]*?)(?=PRIVATE THOUGHTS:|$)/i`
applied to `cs`: after the first case-insensitive occurrence of the public
header, greedy `\s*` takes the maximal whitespace run, and the lazy group
extends to the first subsequent case-insensitive occurrence of the private
header, or to the end of the text. -/
def publicCapture (cs : List Char) : Option (List Char) :=
  match findCI pubHeader cs with
  | none => none
  | some i =>
    let afterWs := (cs.drop (i + pubHeader.length)).dropWhile isWs
    match findCI privHeader afterWs with
    | none => some afterWs
    | some j => some (afterWs.take j)

/-- Capture group of `/PRIVATE THOUGHTS:\s*([\s\S]*?)$/i` applied to `cs`:
everything after the first case-insensitive occurrence of the private header,
with the maximal leading whitespace run consumed by the greedy `\s*`. -/
def privateCapture (cs : List Char) : Option (List Char) :=
  match findCI privHeader cs with
  | none => none
  | some i => some ((cs.drop (i + privHeader.length)).dropWhile isWs)

/-- `LlmService.parseAgentResponse` of `src/services/llm-service.ts`
(lines 114-135).  `publicMatch[1]` / `privateMatch[1]` are truthy exactly
when the capture is a non-empty string, hence the `isEmpty` tests. -/
def parseAgentResponse (responseText : String) : AgentResponse :=
  let cs := responseText.toList
  let publicResponse : String :=
    match publicCapture cs with
    | some cap =>
      if cap.isEmpty then responseText
      else String.mk (stripNameRepsCI (trimList cap))
    | none => responseText
  let privateThoughts : String :=
    match privateCapture cs with
    | some cap => if cap.isEmpty then "" else String.mk (trimList cap)
    | none => ""
  { publicResponse := publicResponse, privateThoughts := privateThoughts }

/-- `LlmService.parseAgentResponse` of the dual-provider variant
(`src/unnamed/part_001`, lines 148-175): same extraction, then the
case-sensitive anchored strip followed by the case-sensitive global removal
of runs of two or more name-prefix repetitions. -/
def parseAgentResponsePart1 (responseText : String) : AgentResponse :=
  let cs := responseText.toList
  let publicResponse : String :=
    match publicCapture cs with
    | some cap =>
      if cap.isEmpty then responseText
      else String.mk (stripMidRuns (stripNameRepsCS (trimList cap)))
    | none => responseText
  let privateThoughts : String :=
    match privateCapture cs with
    | some cap => if cap.isEmpty then "" else String.mk (trimList cap)
    | none => ""
  { publicResponse := publicResponse, privateThoughts := privateThoughts }

/-- The apostrophe character, U+0027. -/
def apos : Char := Char.ofNat 39

/-- A message of the in-memory aggregate (`Message` in `src/types`). -/
structure Message where
  id : Nat
  conversationId : Nat
  agentId : Option Nat
  agentName : Option String
  content : String
  isPrivate : Bool
  timestamp : Nat
deriving Repr, DecidableEq

/-- An agent of the in-memory aggregate (`Agent` in `src/types`). -/
structure Agent where
  id : Nat
  name : String
  systemPrompt : String
  privateThoughts : List Message
deriving Repr, DecidableEq

/-- The in-memory conversation aggregate (`Conversation` in `src/types`). -/
structure Conversation where
  id : Nat
  topic : String
  messages : List Message
  agents : List Agent
  createdAt : Nat
  updatedAt : Nat
deriving Repr, DecidableEq

/-- `LlmService.generateAgentResponse` (`src/services/llm-service.ts` lines
29-64, identically recovered by `src/unnamed/part_001` lines 43-98): on a
successful dispatch the possibly-absent content is defaulted to `''` and
parsed; on a thrown/rejected dispatch the catch block returns the fallback
response naming the agent.  Rate limiting is modelled separately
(`checkRateLimit` below) since it only delays the dispatch; `messages` and
`privateThoughts` only shape the request and are kept for signature
fidelity. -/
def LlmService.generateAgentResponse (agentName : String) (_systemPrompt : String)
    (_messages : List Message) (_privateThoughts : List Message)
    (backendResult : Except String (Option String)) : AgentResponse :=
  match backendResult with
  | .ok content => parseAgentResponse (content.getD "")
  | .error e =>
    { publicResponse := agentName ++ " is unable to respond at the moment."
      privateThoughts := "Error generating response: " ++ e }

/-- Rate-limiter state of `LlmService`: `requestCount` and `lastResetTime`. -/
structure RLState where
  requestCount : Nat
  lastResetTime : Nat
deriving Repr, DecidableEq

/-- `LlmService.checkRateLimit` (`src/services/llm-service.ts` lines 140-159)
with an injectable clock: given the state and the current time `now`, return
the time at which the caller proceeds to dispatch and the state at that
moment.  If a full 60-second window has elapsed, reset and proceed; if the
counter has reached the limit, suspend until the window boundary
(`setTimeout` idealized as exact, so `Date.now()` after the wait is the
boundary) and reset; otherwise proceed at once. -/
def checkRateLimit (rateLimit : Nat) (s : RLState) (now : Nat) : Nat × RLState :=
  if 60000 ≤ now - s.lastResetTime then
    (now, { requestCount := 0, lastResetTime := now })
  else if rateLimit ≤ s.requestCount then
    let boundary := s.lastResetTime + 60000
    (boundary, { requestCount := 0, lastResetTime := boundary })
  else
    (now, s)

/-- One call through the rate limiter: `checkRateLimit`, then the dispatch at
the returned time; `this.requestCount++` afterwards only when the dispatch
succeeded (`ok = true`), mirroring that the increment sits on the success
path of `generateAgentResponse`. -/
def issueCall (rateLimit : Nat) (s : RLState) (now : Nat) (ok : Bool) : Nat × RLState :=
  let (t, s1) := checkRateLimit rateLimit s now
  (t, { s1 with requestCount := s1.requestCount + (if ok then 1 else 0) })

/-- A sequence of calls through one adapter instance: for each arrival time
and success flag, the dispatch time and the fixed window (identified by its
start, the limiter's `lastResetTime` at dispatch) in which it was issued. -/
def rlTrace (rateLimit : Nat) (s : RLState) : List (Nat × Bool) → List (Nat × Nat × Bool)
  | [] => []
  | (now, ok) :: rest =>
    let (t, s1) := issueCall rateLimit s now ok
    (t, s1.lastResetTime, ok) :: rlTrace rateLimit s1 rest

/-- A row of the `conversations` table. -/
structure DbConversation where
  id : Nat
  topic : String
  created_at : Nat
  updated_at : Nat
deriving Repr, DecidableEq

/-- A row of the `agents` table. -/
structure DbAgent where
  id : Nat
  conversation_id : Nat
  name : String
  system_prompt : String
deriving Repr, DecidableEq

/-- A row of the `messages` table. -/
structure DbMessage where
  id : Nat
  conversation_id : Nat
  agent_id : Option Nat
  agent_name : Option String
  content : String
  is_private : Bool
  timestamp : Nat
deriving Repr, DecidableEq

/-- The SQLite store of `DatabaseService` (`src/db/database.ts`): three
tables, each kept in insertion (rowid) order, plus the fresh-id counter that
stands in for `uuidv4()`. -/
structure Db where
  conversations : List DbConversation
  agents : List DbAgent
  messages : List DbMessage
  nextId : Nat
deriving Repr, DecidableEq

/-- The empty store. -/
def dbEmpty : Db := ⟨[], [], [], 0⟩

/-- Allocate a fresh id (`uuidv4()`). -/
def Db.freshId (db : Db) : Nat × Db :=
  (db.nextId, { db with nextId := db.nextId + 1 })

/-- `DatabaseService.createConversation`: `INSERT INTO conversations`. -/
def Db.createConversation (db : Db) (r : DbConversation) : Db :=
  { db with conversations := db.conversations ++ [r] }

/-- `DatabaseService.createAgent`: `INSERT INTO agents`. -/
def Db.createAgent (db : Db) (r : DbAgent) : Db :=
  { db with agents := db.agents ++ [r] }

/-- `DatabaseService.createMessage`: `INSERT INTO messages`. -/
def Db.createMessage (db : Db) (r : DbMessage) : Db :=
  { db with messages := db.messages ++ [r] }

/-- `DatabaseService.getConversation`: `SELECT * FROM conversations WHERE
id = ?` with `.get` — the first matching row in rowid order. -/
def Db.getConversation (db : Db) (id : Nat) : Option DbConversation :=
  db.conversations.find? (fun c => c.id == id)

/-- `DatabaseService.getAgentsForConversation`: `SELECT * FROM agents WHERE
conversation_id = ?`, rows in rowid (creation) order. -/
def Db.getAgentsForConversation (db : Db) (conversationId : Nat) : List DbAgent :=
  db.agents.filter (fun a => a.conversation_id == conversationId)

/-- Stable insertion (for `ORDER BY timestamp ASC`): place `m` before the
first row with a timestamp not smaller than its own, so rows with equal
timestamps keep their rowid order, as a SQLite table scan yields them. -/
def insertByTs (m : DbMessage) : List DbMessage → List DbMessage
  | [] => [m]
  | x :: xs => if m.timestamp ≤ x.timestamp then m :: x :: xs else x :: insertByTs m xs

/-- Stable sort by ascending timestamp (`ORDER BY timestamp ASC`). -/
def sortByTs : List DbMessage → List DbMessage
  | [] => []
  | x :: xs => insertByTs x (sortByTs xs)

/-- `DatabaseService.getPublicMessagesForConversation`:
`... WHERE conversation_id = ? AND is_private = 0 ORDER BY timestamp ASC`. -/
def Db.getPublicMessagesForConversation (db : Db) (conversationId : Nat) : List DbMessage :=
  sortByTs (db.messages.filter (fun m => m.conversation_id == conversationId && !m.is_private))

/-- `DatabaseService.getPrivateMessagesForAgent`:
`... WHERE agent_id = ? AND is_private = 1 ORDER BY timestamp ASC`. -/
def Db.getPrivateMessagesForAgent (db : Db) (agentId : Nat) : List DbMessage :=
  sortByTs (db.messages.filter (fun m => m.agent_id == some agentId && m.is_private))

/-- `DatabaseService.dbMessageToMessage`. -/
def dbMessageToMessage (m : DbMessage) : Message :=
  { id := m.id, conversationId := m.conversation_id, agentId := m.agent_id
    agentName := m.agent_name, content := m.content
    isPrivate := m.is_private, timestamp := m.timestamp }

/-- `DatabaseService.loadConversation` (`src/db/database.ts` lines 137-167). -/
def Db.loadConversation (db : Db) (conversationId : Nat) : Option Conversation :=
  match db.getConversation conversationId with
  | none => none
  | some c =>
    let agents : List Agent := (db.getAgentsForConversation conversationId).map
      (fun a =>
        { id := a.id, name := a.name, systemPrompt := a.system_prompt
          privateThoughts := (db.getPrivateMessagesForAgent a.id).map dbMessageToMessage })
    let messages : List Message :=
      (db.getPublicMessagesForConversation conversationId).map dbMessageToMessage
    some { id := c.id, topic := c.topic, messages := messages, agents := agents
           createdAt := c.created_at, updatedAt := c.updated_at }

/-- Modelled from the spec: `DatabaseService.updateConversation` is invoked
by the turn engine (`src/services/agent-service.ts` line 175) but its
definition is not under `src/`; the spec's store interface lists
`updateConversationTimestamp(id, updatedAt)`, which persists the bumped
`updatedAt` of the conversation row. -/
def Db.updateConversationTimestamp (db : Db) (id : Nat) (updatedAt : Nat) : Db :=
  { db with
    conversations := db.conversations.map
      (fun c => if c.id == id then { c with updated_at := updatedAt } else c) }

/-- JavaScript `String.fromCharCode`: the argument is reduced modulo 2^16 to
a UTF-16 code unit.  (For a code unit in the surrogate range, which no claim
exercises, `Char.ofNat` falls back to U+0000.) -/
def fromCharCode (n : Nat) : Char :=
  Char.ofNat (n % 65536)

/-- `AgentService.baseSystemPrompt` (`src/services/agent-service.ts` lines
12-14). -/
def baseSystemPrompt : String :=
  "You are an intelligent agent participating in a round-table discussion with other agents. \nYour goal is to engage in thoughtful conversation, share insights, and respond to other participants.\nBe respectful, insightful, and contribute meaningfully to the discussion."

/-- The display name assigned to the agent with index `i`:
`` `User ${String.fromCharCode(65 + i)}` `` (line 43). -/
def agentNameOf (i : Nat) : String :=
  "User " ++ String.singleton (fromCharCode (65 + i))

/-- The display name of agent `i` as its sequence of UTF-16 code units, which
is what the JavaScript string is: the units of `"User "` followed by the one
unit `(65 + i) % 2^16` produced by `String.fromCharCode`.  This view is
needed because Lean's `Char` cannot represent the lone surrogates
`fromCharCode` yields for `55231 ≤ i ≤ 57278` (where `Char.ofNat` falls back
to U+0000), while the JavaScript strings remain distinct there; two names
are equal in JavaScript exactly when their code-unit sequences are. -/
def agentNameUnits (i : Nat) : List Nat :=
  "User ".toList.map Char.toNat ++ [(65 + i) % 65536]

/-- The seed message content: `` `Let's discuss the following topic: ${topic}` ``. -/
def seedContent (topic : String) : String :=
  "Let" ++ String.singleton apos ++ "s discuss the following topic: " ++ topic

/-- The agent-creation loop of `AgentService.createConversation` (lines
41-60): for the `k` remaining indices starting at `i`, allocate an id, form
the display name, persist the agent row, and collect the in-memory agent. -/
def createAgentsLoop (conversationId : Nat) (db : Db) (i : Nat) : Nat → List Agent × Db
  | 0 => ([], db)
  | k + 1 =>
    let (agentId, db1) := db.freshId
    let name := agentNameOf i
    let db2 := db1.createAgent
      { id := agentId, conversation_id := conversationId
        name := name, system_prompt := baseSystemPrompt }
    let (rest, db3) := createAgentsLoop conversationId db2 (i + 1) k
    ({ id := agentId, name := name, systemPrompt := baseSystemPrompt
       privateThoughts := [] } :: rest, db3)

/-- `AgentService.createConversation` (`src/services/agent-service.ts` lines
27-93): persist the conversation row, create `numAgents` agents, persist the
seed public message, and return the materialized aggregate; `now` is the one
`Date.now()` captured at entry. -/
def AgentService.createConversation (db : Db) (topic : String) (numAgents : Nat)
    (now : Nat) : Conversation × Db :=
  let (conversationId, db1) := db.freshId
  let db2 := db1.createConversation
    { id := conversationId, topic := topic, created_at := now, updated_at := now }
  let (agents, db3) := createAgentsLoop conversationId db2 0 numAgents
  let (initialMessageId, db4) := db3.freshId
  let content := seedContent topic
  let initialMessage : Message :=
    { id := initialMessageId, conversationId := conversationId, agentId := none
      agentName := none, content := content, isPrivate := false, timestamp := now }
  let db5 := db4.createMessage
    { id := initialMessageId, conversation_id := conversationId, agent_id := none
      agent_name := none, content := content, is_private := false, timestamp := now }
  ({ id := conversationId, topic := topic, messages := [initialMessage]
     agents := agents, createdAt := now, updatedAt := now }, db5)

/-- The public history handed to the adapter:
`conversation.messages.filter(msg => !msg.isPrivate)` (line 108). -/
def publicHistory (conversation : Conversation) : List Message :=
  conversation.messages.filter (fun m => !m.isPrivate)

/-- `AgentService.generateAgentResponse` (`src/services/agent-service.ts`
lines 101-183): resolve the agent (throwing the not-found error when the
index is out of range), call the adapter, persist the public message and the
private thought (both stamped with the one `now` captured after the adapter
call), append them to the aggregate, bump `updatedAt`, and persist the
timestamp.  `backendResult` abstracts the provider dispatch for this call. -/
def AgentService.generateAgentResponse (conversation : Conversation) (db : Db)
    (agentIndex : Nat) (backendResult : Except String (Option String)) (now : Nat) :
    Except String (Conversation × Db) :=
  match conversation.agents[agentIndex]? with
  | none => .error ("Agent at index " ++ toString agentIndex ++ " not found")
  | some agent =>
    let response := LlmService.generateAgentResponse agent.name agent.systemPrompt
      (publicHistory conversation) agent.privateThoughts backendResult
    let (publicMessageId, db1) := db.freshId
    let publicMessage : Message :=
      { id := publicMessageId, conversationId := conversation.id
        agentId := some agent.id, agentName := some agent.name
        content := response.publicResponse, isPrivate := false, timestamp := now }
    let db2 := db1.createMessage
      { id := publicMessageId, conversation_id := conversation.id
        agent_id := some agent.id, agent_name := some agent.name
        content := response.publicResponse, is_private := false, timestamp := now }
    let (privateThoughtId, db3) := db2.freshId
    let privateThought : Message :=
      { id := privateThoughtId, conversationId := conversation.id
        agentId := some agent.id, agentName := some agent.name
        content := response.privateThoughts, isPrivate := true, timestamp := now }
    let db4 := db3.createMessage
      { id := privateThoughtId, conversation_id := conversation.id
        agent_id := some agent.id, agent_name := some agent.name
        content := response.privateThoughts, is_private := true, timestamp := now }
    let agents := conversation.agents.set agentIndex
      { agent with privateThoughts := agent.privateThoughts ++ [privateThought] }
    let db5 := db4.updateConversationTimestamp conversation.id now
    .ok ({ conversation with
           messages := conversation.messages ++ [publicMessage]
           agents := agents, updatedAt := now }, db5)

/-- The inner loop of `AgentService.runConversation` (lines 202-212): one
`generateAgentResponse` per agent index, sequentially; the call with agent
index `i` of this turn is the `(cBase + i)`-th call of the run, which fixes
its backend result `oracle (cBase + i)` and its clock reading
`times (cBase + i)`. -/
def runAgentsList (oracle : Nat → Except String (Option String)) (times : Nat → Nat)
    (cBase : Nat) : List Nat → Conversation × Db → Except String (Conversation × Db)
  | [], st => .ok st
  | i :: rest, st =>
    match AgentService.generateAgentResponse st.1 st.2 i (oracle (cBase + i)) (times (cBase + i)) with
    | .error e => .error e
    | .ok st1 => runAgentsList oracle times cBase rest st1

/-- The outer loop of `AgentService.runConversation` (lines 199-213): one
inner loop over all `n` agent indices per requested turn. -/
def runTurnsList (oracle : Nat → Except String (Option String)) (times : Nat → Nat)
    (n : Nat) : List Nat → Conversation × Db → Except String (Conversation × Db)
  | [], st => .ok st
  | turn :: rest, st =>
    match runAgentsList oracle times (turn * n) (List.range n) st with
    | .error e => .error e
    | .ok st1 => runTurnsList oracle times n rest st1

/-- `AgentService.runConversation` (`src/services/agent-service.ts` lines
191-216): `numAgents` is captured once from the conversation, then the
strictly sequential turn × agent double loop runs (console logging elided;
the `{...conversation}` shallow copy is identity in the pure model). -/
def AgentService.runConversation (oracle : Nat → Except String (Option String))
    (times : Nat → Nat) (conversation : Conversation) (db : Db) (numTurns : Nat) :
    Except String (Conversation × Db) :=
  let numAgents := conversation.agents.length
  runTurnsList oracle times numAgents (List.range numTurns) (conversation, db)

/-- `indexToLetters` (utility shipped alongside `src/db/database.ts`, lines
204-213 of the claim's numbering): the spreadsheet-style letter encoding the
spec describes; not referenced by `AgentService.createConversation`. -/
def indexToLetters (index : Nat) : String :=
  if index < 26 then String.singleton (fromCharCode (65 + index))
  else
    String.singleton (fromCharCode (65 + index / 26 - 1)) ++
      String.singleton (fromCharCode (65 + index % 26))

/-- Freshness of the id counter: every id stored in (or referenced by) the
store is smaller than `nextId`.  This is the uuid-uniqueness assumption in
counter form; it holds of the empty store and is preserved by every
operation of the model. -/
def Db.Fresh (db : Db) : Prop :=
  (∀ c ∈ db.conversations, c.id < db.nextId) ∧
  (∀ a ∈ db.agents, a.id < db.nextId ∧ a.conversation_id < db.nextId) ∧
  (∀ m ∈ db.messages, m.id < db.nextId ∧ m.conversation_id < db.nextId ∧
     ∀ aid, m.agent_id = some aid → aid < db.nextId)

/-- A backend that always answers with a well-formed dual-channel text. -/
def oracleW : Nat → Except String (Option String) :=
  fun _ => .ok (some "PUBLIC RESPONSE:\nok\n\nPRIVATE THOUGHTS:\nhm")

/-- A strictly increasing clock for the witness run. -/
def timesW : Nat → Nat := fun k => 100 + k

/-- Witness conversation: two agents on a fresh store. -/
def convW : Conversation := (AgentService.createConversation dbEmpty "testing" 2 50).1

/-- Witness store state after creation. -/
def dbW : Db := (AgentService.createConversation dbEmpty "testing" 2 50).2

/-- The seed message of the witness conversation. -/
def msgW : Message :=
  { id := 3, conversationId := 0, agentId := none, agentName := none
    content := seedContent "testing", isPrivate := false, timestamp := 50 }

/-! ### Closed forms for conversation creation -/

theorem createAgentsLoop_spec (conversationId : Nat) (db : Db) (i k : Nat) :
    createAgentsLoop conversationId db i k =
      ((List.range k).map (fun j =>
         { id := db.nextId + j, name := agentNameOf (i + j)
           systemPrompt := baseSystemPrompt, privateThoughts := [] }),
       { db with
         agents := db.agents ++ (List.range k).map (fun j =>
           { id := db.nextId + j, conversation_id := conversationId
             name := agentNameOf (i + j), system_prompt := baseSystemPrompt })
         nextId := db.nextId + k }) := by
  induction k generalizing db i with
  | zero => simp [createAgentsLoop]
  | succ k ih =>
    simp only [createAgentsLoop, Db.freshId, Db.createAgent, ih,
      List.range_succ_eq_map, List.map_cons, List.map_map]
    refine Prod.ext ?_ ?_
    · simp only [List.map_map, Function.comp_def]
      simp
      intro a _
      refine ⟨by omega, ?_⟩
      congr 1
      omega
    · simp [Function.comp_def, List.append_assoc]
      refine ⟨fun a _ => ⟨by omega, by congr 1; omega⟩, by omega⟩

theorem createConversation_spec (db : Db) (topic : String) (n now : Nat) :
    AgentService.createConversation db topic n now =
      ({ id := db.nextId, topic := topic
         messages := [{ id := db.nextId + 1 + n, conversationId := db.nextId
                        agentId := none, agentName := none
                        content := seedContent topic, isPrivate := false
                        timestamp := now }]
         agents := (List.range n).map (fun j =>
           { id := db.nextId + 1 + j, name := agentNameOf j
             systemPrompt := baseSystemPrompt, privateThoughts := [] })
         createdAt := now, updatedAt := now },
       { conversations := db.conversations ++
           [{ id := db.nextId, topic := topic, created_at := now, updated_at := now }]
         agents := db.agents ++ (List.range n).map (fun j =>
           { id := db.nextId + 1 + j, conversation_id := db.nextId
             name := agentNameOf j, system_prompt := baseSystemPrompt })
         messages := db.messages ++
           [{ id := db.nextId + 1 + n, conversation_id := db.nextId, agent_id := none
              agent_name := none, content := seedContent topic, is_private := false
              timestamp := now }]
         nextId := db.nextId + 1 + n + 1 }) := by
  simp only [AgentService.createConversation, Db.freshId, Db.createConversation,
    Db.createMessage, createAgentsLoop_spec]
  refine Prod.ext ?_ ?_ <;> simp

theorem loadConversation_roundtrip (db : Db) (topic : String) (n now : Nat)
    (hf : db.Fresh) :
    ((AgentService.createConversation db topic n now).2).loadConversation
        ((AgentService.createConversation db topic n now).1).id =
      some (AgentService.createConversation db topic n now).1 := by
  obtain ⟨hc, ha, hm⟩ := hf
  rw [createConversation_spec]
  simp only [Db.loadConversation, Db.getConversation, Db.getAgentsForConversation,
    Db.getPublicMessagesForConversation, Db.getPrivateMessagesForAgent]
  have h1 : db.conversations.find? (fun c => c.id == db.nextId) = none := by
    rw [List.find?_eq_none]
    intro c hcm
    simpa using Nat.ne_of_lt (hc c hcm)
  have h2 : db.agents.filter (fun a => a.conversation_id == db.nextId) = [] := by
    rw [List.filter_eq_nil_iff]
    intro a ham
    simpa using Nat.ne_of_lt (ha a ham).2
  have h3 : db.messages.filter
      (fun m => m.conversation_id == db.nextId && !m.is_private) = [] := by
    rw [List.filter_eq_nil_iff]
    intro m hmm
    simp [Nat.ne_of_lt (hm m hmm).2.1]
  have h4 : ∀ j : Nat, db.messages.filter
      (fun m => m.agent_id == some (db.nextId + 1 + j) && m.is_private) = [] := by
    intro j
    rw [List.filter_eq_nil_iff]
    intro m hmm
    have := (hm m hmm).2.2
    cases hcase : m.agent_id with
    | none => simp [hcase]
    | some aid =>
      have : aid < db.nextId := (hm m hmm).2.2 aid hcase
      simp only [hcase, Bool.not_eq_true, Bool.and_eq_true, beq_iff_eq]
      intro hcontra
      exact absurd hcontra.1 (by simp; omega)
  simp [h1, h2, h3, h4, List.find?_append, List.filter_append, sortByTs, insertByTs,
    dbMessageToMessage, List.filter_map, Function.comp_def, List.map_map]

/-! ### The single-turn step of the engine -/

theorem list_set_self {α : Type} (l : List α) (i : Nat) (h : i < l.length) :
    l.set i (l.get ⟨i, h⟩) = l := by
  apply List.ext_getElem?
  intro n
  rw [List.getElem?_set]
  split
  · next heq => subst heq; simp [List.getElem?_eq_getElem h]
  · rfl

theorem map_id_set (l : List Agent) (i : Nat) (h : i < l.length) (a : Agent)
    (hid : a.id = (l.get ⟨i, h⟩).id) :
    (l.set i a).map Agent.id = l.map Agent.id := by
  rw [List.map_set, hid]
  have : (l.get ⟨i, h⟩).id = (l.map Agent.id).get ⟨i, by simpa using h⟩ := by
    simp
  rw [this, list_set_self]

theorem generateAgentResponse_ok (conversation : Conversation) (db : Db) (i : Nat)
    (r : Except String (Option String)) (now : Nat) (h : i < conversation.agents.length) :
    AgentService.generateAgentResponse conversation db i r now =
      .ok ({ conversation with
             messages := conversation.messages ++
               [{ id := db.nextId, conversationId := conversation.id
                  agentId := some conversation.agents[i].id
                  agentName := some conversation.agents[i].name
                  content := (LlmService.generateAgentResponse conversation.agents[i].name
                    conversation.agents[i].systemPrompt (publicHistory conversation)
                    conversation.agents[i].privateThoughts r).publicResponse
                  isPrivate := false, timestamp := now }]
             agents := conversation.agents.set i
               { conversation.agents[i] with
                 privateThoughts := conversation.agents[i].privateThoughts ++
                   [{ id := db.nextId + 1, conversationId := conversation.id
                      agentId := some conversation.agents[i].id
                      agentName := some conversation.agents[i].name
                      content := (LlmService.generateAgentResponse conversation.agents[i].name
                        conversation.agents[i].systemPrompt (publicHistory conversation)
                        conversation.agents[i].privateThoughts r).privateThoughts
                      isPrivate := true, timestamp := now }] }
             updatedAt := now },
           { conversations := db.conversations.map
               (fun c => if c.id == conversation.id then { c with updated_at := now } else c)
             agents := db.agents
             messages := db.messages ++
               [{ id := db.nextId, conversation_id := conversation.id
                  agent_id := some conversation.agents[i].id
                  agent_name := some conversation.agents[i].name
                  content := (LlmService.generateAgentResponse conversation.agents[i].name
                    conversation.agents[i].systemPrompt (publicHistory conversation)
                    conversation.agents[i].privateThoughts r).publicResponse
                  is_private := false, timestamp := now },
                { id := db.nextId + 1, conversation_id := conversation.id
                  agent_id := some conversation.agents[i].id
                  agent_name := some conversation.agents[i].name
                  content := (LlmService.generateAgentResponse conversation.agents[i].name
                    conversation.agents[i].systemPrompt (publicHistory conversation)
                    conversation.agents[i].privateThoughts r).privateThoughts
                  is_private := true, timestamp := now }]
             nextId := db.nextId + 2 }) := by
  simp only [AgentService.generateAgentResponse, List.getElem?_eq_getElem h,
    Db.freshId, Db.createMessage, Db.updateConversationTimestamp]
  simp [List.append_assoc]

/-! ### The run loops -/

theorem range_getElem?_map {α : Type} (l : List α) :
    (List.range l.length).map (fun i => l[i]?) = l.map some := by
  induction l with
  | nil => simp
  | cons a l ih =>
    simp only [List.length_cons, List.range_succ_eq_map, List.map_cons, List.map_map]
    refine congrArg₂ _ (by simp) ?_
    simpa [Function.comp_def] using ih

theorem runAgentsList_spec (oracle : Nat → Except String (Option String))
    (times : Nat → Nat) (cBase : Nat) (is : List Nat) :
    ∀ st : Conversation × Db, (∀ i ∈ is, i < st.1.agents.length) →
    ∃ conv2 db2 pubs rows,
      runAgentsList oracle times cBase is st = .ok (conv2, db2) ∧
      conv2.agents.map Agent.id = st.1.agents.map Agent.id ∧
      conv2.messages = st.1.messages ++ pubs ∧
      pubs.map Message.agentId = is.map (fun i => (st.1.agents.map Agent.id)[i]?) ∧
      pubs.map Message.timestamp = is.map (fun i => times (cBase + i)) ∧
      (∀ m ∈ pubs, m.isPrivate = false) ∧
      db2.messages = st.2.messages ++ rows ∧
      (rows.filter (fun m => m.is_private)).length = is.length ∧
      (rows.filter (fun m => !m.is_private)).length = is.length := by
  induction is with
  | nil =>
    intro st _
    exact ⟨st.1, st.2, [], [], by simp [runAgentsList], rfl, by simp, by simp, by simp,
      by simp, by simp, by simp, by simp⟩
  | cons i rest ih =>
    intro st h
    have hi : i < st.1.agents.length := h i (by simp)
    rw [runAgentsList, generateAgentResponse_ok st.1 st.2 i _ _ hi]
    set resp := LlmService.generateAgentResponse st.1.agents[i].name st.1.agents[i].systemPrompt (publicHistory st.1) st.1.agents[i].privateThoughts (oracle (cBase + i)) with hresp
    set pub : Message := { id := st.2.nextId, conversationId := st.1.id, agentId := some st.1.agents[i].id, agentName := some st.1.agents[i].name, content := resp.publicResponse, isPrivate := false, timestamp := times (cBase + i) } with hpub
    set priv : Message := { id := st.2.nextId + 1, conversationId := st.1.id, agentId := some st.1.agents[i].id, agentName := some st.1.agents[i].name, content := resp.privateThoughts, isPrivate := true, timestamp := times (cBase + i) } with hpriv0
    set pubRow : DbMessage := { id := st.2.nextId, conversation_id := st.1.id, agent_id := some st.1.agents[i].id, agent_name := some st.1.agents[i].name, content := resp.publicResponse, is_private := false, timestamp := times (cBase + i) } with hpubRow
    set privRow : DbMessage := { id := st.2.nextId + 1, conversation_id := st.1.id, agent_id := some st.1.agents[i].id, agent_name := some st.1.agents[i].name, content := resp.privateThoughts, is_private := true, timestamp := times (cBase + i) } with hprivRow
    set agents1 : List Agent := st.1.agents.set i { st.1.agents[i] with privateThoughts := st.1.agents[i].privateThoughts ++ [priv] } with hagents1
    set conv1 : Conversation := { st.1 with messages := st.1.messages ++ [pub], agents := agents1, updatedAt := times (cBase + i) } with hconv1
    set db1 : Db := { conversations := st.2.conversations.map (fun c => if c.id == st.1.id then { c with updated_at := times (cBase + i) } else c), agents := st.2.agents, messages := st.2.messages ++ [pubRow, privRow], nextId := st.2.nextId + 2 } with hdb1
    have hsetids : agents1.map Agent.id = st.1.agents.map Agent.id := by
      rw [hagents1]
      exact map_id_set _ _ hi _ rfl
    have hlen1 : conv1.agents.length = st.1.agents.length := by
      rw [hconv1]
      simpa using congrArg List.length hsetids
    obtain ⟨conv2, db2, pubs, rows, hrun, hids, hmsgs, hagmap, htsmap, hpriv, hdbm, hrc1, hrc2⟩ :=
      ih (conv1, db1) (by
        intro j hj
        rw [hlen1]
        exact h j (by simp [hj]))
    refine ⟨conv2, db2, pub :: pubs, pubRow :: privRow :: rows, hrun, ?_, ?_, ?_, ?_, ?_, ?_, ?_, ?_⟩
    · rw [hids, hconv1]
      exact hsetids
    · rw [hmsgs, hconv1]
      simp
    · simp only [List.map_cons]
      refine congrArg₂ _ ?_ ?_
      · show pub.agentId = (st.1.agents.map Agent.id)[i]?
        rw [List.getElem?_eq_getElem (show i < (st.1.agents.map Agent.id).length from by simpa using hi)]
        simp [hpub]
      · rw [hagmap]
        have hconvids : conv1.agents.map Agent.id = st.1.agents.map Agent.id := hsetids
        simp only [hconvids]
    · simp only [List.map_cons, htsmap, hpub]
    · intro m hm
      rcases List.mem_cons.mp hm with hcase | hcase
      · rw [hcase, hpub]
      · exact hpriv m hcase
    · rw [hdbm, hdb1]
      simp
    · rw [List.filter_cons, List.filter_cons]
      have h1 : pubRow.is_private = false := by rw [hpubRow]
      have h2 : privRow.is_private = true := by rw [hprivRow]
      simp [h1, h2, hrc1]
    · rw [List.filter_cons, List.filter_cons]
      have h1 : pubRow.is_private = false := by rw [hpubRow]
      have h2 : privRow.is_private = true := by rw [hprivRow]
      simp [h1, h2, hrc2]

theorem runTurnsList_spec (oracle : Nat → Except String (Option String))
    (times : Nat → Nat) (n : Nat) (ts : List Nat) :
    ∀ st : Conversation × Db, st.1.agents.length = n →
    ∃ conv2 db2 pubs rows,
      runTurnsList oracle times n ts st = .ok (conv2, db2) ∧
      conv2.agents.map Agent.id = st.1.agents.map Agent.id ∧
      conv2.messages = st.1.messages ++ pubs ∧
      pubs.map Message.agentId = ts.flatMap (fun _ => (st.1.agents.map Agent.id).map some) ∧
      pubs.map Message.timestamp =
        ts.flatMap (fun turn => (List.range n).map (fun i => times (turn * n + i))) ∧
      (∀ m ∈ pubs, m.isPrivate = false) ∧
      db2.messages = st.2.messages ++ rows ∧
      (rows.filter (fun m => m.is_private)).length = ts.length * n ∧
      (rows.filter (fun m => !m.is_private)).length = ts.length * n := by
  induction ts with
  | nil =>
    intro st _
    exact ⟨st.1, st.2, [], [], by simp [runTurnsList], rfl, by simp, by simp, by simp,
      by simp, by simp, by simp, by simp⟩
  | cons turn rest ih =>
    intro st hn
    obtain ⟨conv1, db1, pubs1, rows1, hrun1, hids1, hmsgs1, hagmap1, htsmap1, hpriv1,
        hdbm1, hrc11, hrc12⟩ :=
      runAgentsList_spec oracle times (turn * n) (List.range n) st
        (by intro j hj; rw [hn]; exact List.mem_range.mp hj)
    obtain ⟨conv2, db2, pubs2, rows2, hrun2, hids2, hmsgs2, hagmap2, htsmap2, hpriv2,
        hdbm2, hrc21, hrc22⟩ :=
      ih (conv1, db1) (by
        have := congrArg List.length hids1
        simpa [hn] using this)
    refine ⟨conv2, db2, pubs1 ++ pubs2, rows1 ++ rows2, ?_, ?_, ?_, ?_, ?_, ?_, ?_, ?_, ?_⟩
    · rw [runTurnsList, hrun1]
      exact hrun2
    · rw [hids2]
      exact hids1
    · rw [hmsgs2, hmsgs1, List.append_assoc]
    · rw [List.map_append, List.flatMap_cons, hagmap1, hagmap2, hids1]
      refine congrArg₂ _ ?_ rfl
      have : (List.range n).map (fun i => (st.1.agents.map Agent.id)[i]?) =
          (st.1.agents.map Agent.id).map some := by
        have hlen : n = (st.1.agents.map Agent.id).length := by simp [hn]
        subst hlen
        exact range_getElem?_map _
      exact this
    · rw [List.map_append, List.flatMap_cons, htsmap1, htsmap2]
    · intro m hm
      rcases List.mem_append.mp hm with hcase | hcase
      · exact hpriv1 m hcase
      · exact hpriv2 m hcase
    · rw [hdbm2, hdbm1, List.append_assoc]
    · rw [List.filter_append, List.length_append, hrc11, hrc21]
      simp [Nat.succ_mul, Nat.add_comm]
    · rw [List.filter_append, List.length_append, hrc12, hrc22]
      simp [Nat.succ_mul, Nat.add_comm]

/-! ### Claim C3 -/

/-- C3: for every conversation with `n ≥ 1` agents and every `t ≥ 0`, with no
fatal store failure (store writes are total in the model) `runConversation`
returns successfully and appends exactly `t * n` public messages to the
conversation — authored in strict turn-major, agent-index-minor order, the
call of turn `turn` and agent `i` stamped with the `(turn * n + i)`-th clock
reading — and persists exactly `t * n` public and `t * n` private message
rows, one of each per `generateAgentResponse`. -/
theorem runConversation_turn_products (oracle : Nat → Except String (Option String))
    (times : Nat → Nat) (conversation : Conversation) (db : Db) (t : Nat)
    (_hn : 1 ≤ conversation.agents.length) :
    ∃ conv2 db2 pubs,
      AgentService.runConversation oracle times conversation db t = .ok (conv2, db2) ∧
      conv2.messages = conversation.messages ++ pubs ∧
      pubs.length = t * conversation.agents.length ∧
      pubs.map Message.agentId =
        (List.range t).flatMap (fun _ => conversation.agents.map (fun a => some a.id)) ∧
      pubs.map Message.timestamp =
        (List.range t).flatMap (fun turn =>
          (List.range conversation.agents.length).map
            (fun i => times (turn * conversation.agents.length + i))) ∧
      (∀ m ∈ pubs, m.isPrivate = false) ∧
      (db2.messages.filter (fun m => m.is_private)).length =
        (db.messages.filter (fun m => m.is_private)).length +
          t * conversation.agents.length ∧
      (db2.messages.filter (fun m => !m.is_private)).length =
        (db.messages.filter (fun m => !m.is_private)).length +
          t * conversation.agents.length := by
  obtain ⟨conv2, db2, pubs, rows, hrun, hids, hmsgs, hagmap, htsmap, hpriv, hdbm, hrc1, hrc2⟩ :=
    runTurnsList_spec oracle times conversation.agents.length (List.range t)
      (conversation, db) rfl
  have hagmap2 : pubs.map Message.agentId =
      (List.range t).flatMap (fun _ => conversation.agents.map (fun a => some a.id)) := by
    rw [hagmap]
    simp [List.map_map, Function.comp_def]
  have hlen : pubs.length = t * conversation.agents.length := by
    have hcast := congrArg List.length hagmap2
    simp only [List.length_map, List.length_flatMap] at hcast
    simpa [Function.comp_def, mul_comm] using hcast
  refine ⟨conv2, db2, pubs, hrun, hmsgs, hlen, hagmap2, htsmap, hpriv, ?_, ?_⟩
  · rw [hdbm, List.filter_append, List.length_append, hrc1]
    simp
  · rw [hdbm, List.filter_append, List.length_append, hrc2]
    simp

/-- Witness for C3 at `t = 2`, `n = 2`. -/
theorem runConversation_turn_products_witness :
    ∃ conv2 db2 pubs,
      AgentService.runConversation oracleW timesW convW dbW 2 = .ok (conv2, db2) ∧
      conv2.messages = convW.messages ++ pubs ∧
      pubs.length = 2 * convW.agents.length ∧
      pubs.map Message.agentId =
        (List.range 2).flatMap (fun _ => convW.agents.map (fun a => some a.id)) ∧
      pubs.map Message.timestamp =
        (List.range 2).flatMap (fun turn =>
          (List.range convW.agents.length).map
            (fun i => timesW (turn * convW.agents.length + i))) ∧
      (∀ m ∈ pubs, m.isPrivate = false) ∧
      (db2.messages.filter (fun m => m.is_private)).length =
        (dbW.messages.filter (fun m => m.is_private)).length + 2 * convW.agents.length ∧
      (db2.messages.filter (fun m => !m.is_private)).length =
        (dbW.messages.filter (fun m => !m.is_private)).length + 2 * convW.agents.length :=
  runConversation_turn_products oracleW timesW convW dbW 2 (by decide)

/-! ### Claims C9, C4, C5 -/

/-- C9: for an agent index outside the conversation's agent list, the turn
engine's `generateAgentResponse` reports the explicit not-found outcome
(a thrown `Error` naming the index, modelled as `Except.error`).  The throw
is the first statement of the function, before any store write or aggregate
mutation, so the error result carries no new state: no message is created
and `updatedAt` is untouched. -/
theorem generateAgentResponse_index_not_found (conversation : Conversation) (db : Db)
    (agentIndex : Nat) (backendResult : Except String (Option String)) (now : Nat)
    (h : conversation.agents.length ≤ agentIndex) :
    AgentService.generateAgentResponse conversation db agentIndex backendResult now =
      .error ("Agent at index " ++ toString agentIndex ++ " not found") := by
  simp only [AgentService.generateAgentResponse, List.getElem?_eq_none h]

/-- Witness for C9: index 5 on the two-agent witness conversation. -/
theorem generateAgentResponse_index_not_found_witness :
    AgentService.generateAgentResponse convW dbW 5 (.ok none) 60 =
      .error ("Agent at index " ++ toString 5 ++ " not found") :=
  generateAgentResponse_index_not_found convW dbW 5 (.ok none) 60 (by decide)

/-- C4: when the backend dispatch throws or rejects, the adapter's
`generateAgentResponse` does not raise: it returns the fallback response
whose public text is the fixed unavailability notice beginning with the
agent's name and whose private text records the error description; hence the
turn engine's `generateAgentResponse` still completes and appends exactly
that public message. -/
theorem generateAgentResponse_backend_failure_contained
    (agentName systemPrompt : String) (messages privateThoughts : List Message)
    (e : String) (conversation : Conversation) (db : Db) (i now : Nat)
    (h : i < conversation.agents.length) :
    LlmService.generateAgentResponse agentName systemPrompt messages privateThoughts
        (.error e) =
      { publicResponse := agentName ++ " is unable to respond at the moment."
        privateThoughts := "Error generating response: " ++ e } ∧
    ∃ conv2 db2,
      AgentService.generateAgentResponse conversation db i (.error e) now =
        .ok (conv2, db2) ∧
      conv2.messages = conversation.messages ++
        [{ id := db.nextId, conversationId := conversation.id
           agentId := some conversation.agents[i].id
           agentName := some conversation.agents[i].name
           content := conversation.agents[i].name ++ " is unable to respond at the moment."
           isPrivate := false, timestamp := now }] := by
  refine ⟨rfl, ?_⟩
  exact ⟨_, _, generateAgentResponse_ok conversation db i (.error e) now h, rfl⟩

/-- Witness for C4: a rejected dispatch for agent 0 of the witness
conversation. -/
theorem generateAgentResponse_backend_failure_contained_witness :
    LlmService.generateAgentResponse "User A" baseSystemPrompt [] [] (.error "boom") =
      { publicResponse := "User A is unable to respond at the moment."
        privateThoughts := "Error generating response: boom" } ∧
    ∃ conv2 db2,
      AgentService.generateAgentResponse convW dbW 0 (.error "boom") 60 =
        .ok (conv2, db2) ∧
      conv2.messages = convW.messages ++
        [{ id := dbW.nextId, conversationId := convW.id
           agentId := some convW.agents[0].id
           agentName := some convW.agents[0].name
           content := convW.agents[0].name ++ " is unable to respond at the moment."
           isPrivate := false, timestamp := 60 }] :=
  generateAgentResponse_backend_failure_contained "User A" baseSystemPrompt [] []
    "boom" convW dbW 0 60 (by decide)

/-- C5 counterexample: a successful dispatch whose content is absent is *not*
turned into the "unavailable" fallback — it is parsed, giving the empty
public response, which does not name the agent. -/
theorem llm_empty_content_cex :
    (LlmService.generateAgentResponse "User A" baseSystemPrompt [] [] (.ok none)) =
      { publicResponse := "", privateThoughts := "" } ∧
    ("" : String) ≠ "User A is unable to respond at the moment." := by
  exact ⟨rfl, by decide⟩

/-- C5 amended: on a successful dispatch with empty or absent content the
adapter returns the parse of the empty string — empty public response and
empty private thoughts — rather than the fallback notice; the fallback is
produced only when the dispatch throws or rejects. -/
theorem llm_empty_content_amended (agentName systemPrompt : String)
    (messages privateThoughts : List Message) :
    LlmService.generateAgentResponse agentName systemPrompt messages privateThoughts
        (.ok none) = { publicResponse := "", privateThoughts := "" } ∧
    LlmService.generateAgentResponse agentName systemPrompt messages privateThoughts
        (.ok (some "")) = { publicResponse := "", privateThoughts := "" } :=
  ⟨rfl, rfl⟩

/-! ### Claim C2 -/

/-- C2 counterexample: an input without the public header but with a private
header — the fallback keeps the whole raw text as the public response, but
the private capture still matches, so `privateThoughts` is `"secret"`, not
the empty string the claim requires. -/
theorem parse_fallback_private_cex :
    findCI pubHeader "hello PRIVATE THOUGHTS: secret".toList = none ∧
    parseAgentResponse "hello PRIVATE THOUGHTS: secret" =
      { publicResponse := "hello PRIVATE THOUGHTS: secret"
        privateThoughts := "secret" } ∧
    ("secret" : String) ≠ "" := by
  refine ⟨by decide, by decide, by decide⟩

/-- C2 amended: when the case-insensitive public header does not occur, the
entire raw text is returned as the public response; the private channel is
empty when the private header does not occur either, and otherwise holds the
trimmed text following the first private header. -/
theorem parse_no_public_header (s : String)
    (h : findCI pubHeader s.toList = none) :
    (parseAgentResponse s).publicResponse = s ∧
    (findCI privHeader s.toList = none →
      (parseAgentResponse s).privateThoughts = "") := by
  have h' : findCI pubHeader s.data = none := h
  constructor
  · simp [parseAgentResponse, publicCapture, h']
  · intro h2
    have h2' : findCI privHeader s.data = none := h2
    simp [parseAgentResponse, privateCapture, h2']

/-- Witness for C2 (amended): the spec's header-free example. -/
theorem parse_no_public_header_witness :
    (parseAgentResponse "just text, no headers").publicResponse =
        "just text, no headers" ∧
    (findCI privHeader "just text, no headers".toList = none →
      (parseAgentResponse "just text, no headers").privateThoughts = "") :=
  parse_no_public_header "just text, no headers" (by decide)

/-! ### Claim C8 -/

/-- C8 counterexample: the primary parser does not strip repeated name-prefix
runs *inside* the extracted text, and the dual-provider variant's stripping
is case-sensitive, so neither parser strips of both kinds case-insensitively
as the claim asserts. -/
theorem parse_name_strip_cex :
    parseAgentResponse "PUBLIC RESPONSE:\nHi. User A: User A: Bye" =
      { publicResponse := "Hi. User A: User A: Bye", privateThoughts := "" } ∧
    ("Hi. User A: User A: Bye" : String) ≠ "Hi. Bye" ∧
    parseAgentResponsePart1 "PUBLIC RESPONSE:\nuser a: user a: Hi" =
      { publicResponse := "user a: user a: Hi", privateThoughts := "" } ∧
    ("user a: user a: Hi" : String) ≠ "Hi" := by
  refine ⟨by decide, by decide, by decide, by decide⟩

/-- C8 amended: after extraction the primary parser strips one or more
case-insensitive `"User <letters>: "` repetitions at the *start* of the text
only; the dual-provider variant strips a case-sensitive run at the start and
case-sensitive runs of two or more repetitions inside the text.  Both yield
`"Hi there"` on the spec's example. -/
theorem parse_name_strip_amended :
    parseAgentResponse "PUBLIC RESPONSE:\nUser A: User A: Hi there" =
      { publicResponse := "Hi there", privateThoughts := "" } ∧
    parseAgentResponsePart1 "PUBLIC RESPONSE:\nUser A: User A: Hi there" =
      { publicResponse := "Hi there", privateThoughts := "" } ∧
    parseAgentResponse "PUBLIC RESPONSE:\nuser a: User A: Hi there" =
      { publicResponse := "Hi there", privateThoughts := "" } ∧
    parseAgentResponsePart1 "PUBLIC RESPONSE:\nHi. User A: User A: Bye" =
      { publicResponse := "Hi. Bye", privateThoughts := "" } := by
  refine ⟨by decide, by decide, by decide, by decide⟩

/-! ### Claim C1 -/

/-- C1 counterexample: the display names assigned by `createConversation` are
`"User X"` strings, not the bare base-26 sequence — the name derived from
index 0 is `"User A"`, not `"A"`, and the name derived from index 26 is
`"User ["` (code 65 + 26 = 91), neither `"AA"` nor `"User AA"`. -/
theorem createConversation_names_cex :
    ((AgentService.createConversation dbEmpty "t" 27 0).1.agents.map Agent.name)[0]? =
      some "User A" ∧
    ("User A" : String) ≠ "A" ∧
    ((AgentService.createConversation dbEmpty "t" 27 0).1.agents.map Agent.name)[26]? =
      some ("User " ++ String.singleton (Char.ofNat 91)) ∧
    ("User " ++ String.singleton (Char.ofNat 91) : String) ≠ "AA" ∧
    ("User " ++ String.singleton (Char.ofNat 91) : String) ≠ "User AA" := by
  refine ⟨by decide, by decide, by decide, by decide, by decide⟩

/-- C1 amended: `createConversation` produces exactly `agentCount` agents;
the display name of agent `i` is `"User "` followed by the single UTF-16
code unit `(65 + i) mod 2^16`, so the names are pairwise distinct exactly
for `agentCount ≤ 65536` (stated of the names' code-unit sequences
`agentNameUnits`, since the Lean-`Char` rendering cannot carry lone
surrogates; the first collision appears at index 65536, where the unit wraps
back to that of index 0).  For `agentCount ≤ 26` the names are `"User A"` …
`"User Z"`, pairwise distinct also as rendered strings.  The
spreadsheet-style base-26 sequence with `name(25) = "Z"`,
`name(26) = "AA"`, `name(51) = "AZ"`, `name(52) = "BA"` is realized by the
separate utility `indexToLetters`, which `createConversation` never calls. -/
theorem createConversation_agent_names (db : Db) (topic : String) (n now : Nat)
    (_hn : 1 ≤ n) :
    (AgentService.createConversation db topic n now).1.agents.length = n ∧
    (AgentService.createConversation db topic n now).1.agents.map Agent.name =
      (List.range n).map agentNameOf ∧
    (n ≤ 65536 → ((List.range n).map agentNameUnits).Nodup) ∧
    agentNameUnits 65536 = agentNameUnits 0 ∧
    (n ≤ 26 →
      ((AgentService.createConversation db topic n now).1.agents.map Agent.name).Nodup) ∧
    indexToLetters 25 = "Z" ∧ indexToLetters 26 = "AA" ∧
    indexToLetters 51 = "AZ" ∧ indexToLetters 52 = "BA" := by
  have hmap : (AgentService.createConversation db topic n now).1.agents.map Agent.name =
      (List.range n).map agentNameOf := by
    rw [createConversation_spec]
    simp [List.map_map, Function.comp_def]
  refine ⟨?_, hmap, ?_, by decide, ?_, by decide, by decide, by decide, by decide⟩
  · rw [createConversation_spec]
    simp
  · intro h16
    refine List.Nodup.map_on ?_ (List.nodup_range n)
    intro i hi j hj heq
    simp only [List.mem_range] at hi hj
    have hunit : (65 + i) % 65536 = (65 + j) % 65536 := by
      simpa [agentNameUnits] using heq
    omega
  · intro h26
    rw [hmap]
    have hbnd : ∀ m : Nat, m < 27 → ((List.range m).map agentNameOf).Nodup := by decide
    exact hbnd n (by omega)

/-- Witness for C1 (amended) at three agents. -/
theorem createConversation_agent_names_witness :
    (AgentService.createConversation dbEmpty "testing" 3 50).1.agents.length = 3 ∧
    (AgentService.createConversation dbEmpty "testing" 3 50).1.agents.map Agent.name =
      (List.range 3).map agentNameOf ∧
    (3 ≤ 65536 → ((List.range 3).map agentNameUnits).Nodup) ∧
    agentNameUnits 65536 = agentNameUnits 0 ∧
    (3 ≤ 26 →
      ((AgentService.createConversation dbEmpty "testing" 3 50).1.agents.map Agent.name).Nodup) ∧
    indexToLetters 25 = "Z" ∧ indexToLetters 26 = "AA" ∧
    indexToLetters 51 = "AZ" ∧ indexToLetters 52 = "BA" :=
  createConversation_agent_names dbEmpty "testing" 3 50 (by decide)

/-! ### Claim C7 -/

/-- C7: against a store with a fresh id supply, loading the id of a freshly
created conversation is non-absent and reproduces the created aggregate
exactly — in particular the same topic, the same `n` agents with the same
names and system prompts, and the single seed public message with the same
content. -/
theorem loadConversation_createConversation_roundtrip (db : Db) (topic : String)
    (n now : Nat) (hf : db.Fresh) (_hn : 1 ≤ n) :
    ((AgentService.createConversation db topic n now).2).loadConversation
        ((AgentService.createConversation db topic n now).1).id =
      some (AgentService.createConversation db topic n now).1 ∧
    (AgentService.createConversation db topic n now).1.topic = topic ∧
    (AgentService.createConversation db topic n now).1.agents.length = n ∧
    ((AgentService.createConversation db topic n now).1.messages.map Message.content) =
      [seedContent topic] := by
  refine ⟨loadConversation_roundtrip db topic n now hf, ?_, ?_, ?_⟩ <;>
    rw [createConversation_spec] <;> simp

/-- Witness for C7: one agent on the empty store. -/
theorem loadConversation_createConversation_roundtrip_witness :
    ((AgentService.createConversation dbEmpty "topic" 1 9).2).loadConversation
        ((AgentService.createConversation dbEmpty "topic" 1 9).1).id =
      some (AgentService.createConversation dbEmpty "topic" 1 9).1 ∧
    (AgentService.createConversation dbEmpty "topic" 1 9).1.topic = "topic" ∧
    (AgentService.createConversation dbEmpty "topic" 1 9).1.agents.length = 1 ∧
    ((AgentService.createConversation dbEmpty "topic" 1 9).1.messages.map Message.content) =
      [seedContent "topic"] :=
  loadConversation_createConversation_roundtrip dbEmpty "topic" 1 9
    (by refine ⟨?_, ?_, ?_⟩ <;> simp [dbEmpty]) (by decide)

/-! ### Claim C6 -/

/-- C6 counterexample: with configured threshold 0, a call finding the
counter at the threshold waits to the window boundary, resets the window,
and then dispatches — so the fresh window starting at the boundary receives
one dispatch, exceeding the threshold 0.  Moreover the counter counts only
*successful* dispatches: with threshold 1, a failed dispatch followed by a
successful one puts two dispatches in the same window. -/
theorem rate_limit_threshold_zero_cex :
    rlTrace 0 ⟨0, 0⟩ [(0, true)] = [(60000, 60000, true)] ∧
    ¬ ((rlTrace 0 ⟨0, 0⟩ [(0, true)]).filter
        (fun p => p.2.1 == 60000 && p.2.2)).length ≤ 0 ∧
    rlTrace 1 ⟨0, 0⟩ [(10, false), (20, true)] = [(10, 0, false), (20, 0, true)] ∧
    ¬ ((rlTrace 1 ⟨0, 0⟩ [(10, false), (20, true)]).filter
        (fun p => p.2.1 == 0)).length ≤ 1 := by
  refine ⟨by decide, by decide, by decide, by decide⟩

/-- Length of a filtered cons in arithmetic form. -/
theorem filter_cons_length {α : Type} (p : α → Bool) (x : α) (l : List α) :
    (List.filter p (x :: l)).length =
      (if p x then 1 else 0) + (List.filter p l).length := by
  by_cases h : p x <;> simp [List.filter_cons, h, Nat.add_comm]

/-- Strengthened window-count bound for the limiter trace: from a state whose
window start is `lastResetTime`, the window `T` can still receive no further
successful dispatches when `T` lies in the past, at most
`R - requestCount` when `T` is the current window, and at most `R`
otherwise. -/
theorem rlTrace_window_bound_aux (R : Nat) (as : List (Nat × Bool)) :
    ∀ (s : RLState) (T : Nat), 1 ≤ R →
      ((rlTrace R s as).filter (fun p => p.2.1 == T && p.2.2)).length ≤
        (if T < s.lastResetTime then 0
         else if T = s.lastResetTime then R - s.requestCount else R) := by
  induction as with
  | nil =>
    intro s T _
    simp only [rlTrace, List.filter_nil, List.length_nil]
    split <;> [omega; split <;> omega]
  | cons a rest ih =>
    rintro s T hR
    obtain ⟨now, ok⟩ := a
    by_cases hA : 60000 ≤ now - s.lastResetTime
    · have hnow : s.lastResetTime + 60000 ≤ now := by omega
      cases ok with
      | true =>
        have hstep : rlTrace R s ((now, true) :: rest) =
            (now, now, true) :: rlTrace R ⟨1, now⟩ rest := by
          simp [rlTrace, issueCall, checkRateLimit, hA]
        have hrec := ih ⟨1, now⟩ T hR
        have hhead : (((now, now, true) : Nat × Nat × Bool).2.1 == T &&
            ((now, now, true) : Nat × Nat × Bool).2.2) = (now == T) := by simp
        rw [hstep, filter_cons_length, hhead]
        simp only at hrec
        by_cases hT : now = T
        · rw [if_pos (by simp [hT])]
          split_ifs at hrec ⊢ <;> omega
        · rw [if_neg (by simp [hT])]
          split_ifs at hrec ⊢ <;> omega
      | false =>
        have hstep : rlTrace R s ((now, false) :: rest) =
            (now, now, false) :: rlTrace R ⟨0, now⟩ rest := by
          simp [rlTrace, issueCall, checkRateLimit, hA]
        have hrec := ih ⟨0, now⟩ T hR
        have hhead : (((now, now, false) : Nat × Nat × Bool).2.1 == T &&
            ((now, now, false) : Nat × Nat × Bool).2.2) = false := by simp
        rw [hstep, filter_cons_length, hhead, if_neg (by simp)]
        simp only at hrec
        split_ifs at hrec ⊢ <;> omega
    · by_cases hB : R ≤ s.requestCount
      · cases ok with
        | true =>
          have hstep : rlTrace R s ((now, true) :: rest) =
              (s.lastResetTime + 60000, s.lastResetTime + 60000, true) ::
                rlTrace R ⟨1, s.lastResetTime + 60000⟩ rest := by
            simp [rlTrace, issueCall, checkRateLimit, hA, hB]
          have hrec := ih ⟨1, s.lastResetTime + 60000⟩ T hR
          have hhead : (((s.lastResetTime + 60000, s.lastResetTime + 60000, true) : Nat × Nat × Bool).2.1 == T &&
              ((s.lastResetTime + 60000, s.lastResetTime + 60000, true) : Nat × Nat × Bool).2.2) =
            (s.lastResetTime + 60000 == T) := by simp
          rw [hstep, filter_cons_length, hhead]
          simp only at hrec
          by_cases hT : s.lastResetTime + 60000 = T
          · rw [if_pos (by simp [hT])]
            split_ifs at hrec ⊢ <;> omega
          · rw [if_neg (by simp [hT])]
            split_ifs at hrec ⊢ <;> omega
        | false =>
          have hstep : rlTrace R s ((now, false) :: rest) =
              (s.lastResetTime + 60000, s.lastResetTime + 60000, false) ::
                rlTrace R ⟨0, s.lastResetTime + 60000⟩ rest := by
            simp [rlTrace, issueCall, checkRateLimit, hA, hB]
          have hrec := ih ⟨0, s.lastResetTime + 60000⟩ T hR
          have hhead : (((s.lastResetTime + 60000, s.lastResetTime + 60000, false) : Nat × Nat × Bool).2.1 == T &&
              ((s.lastResetTime + 60000, s.lastResetTime + 60000, false) : Nat × Nat × Bool).2.2) = false := by simp
          rw [hstep, filter_cons_length, hhead, if_neg (by simp)]
          simp only at hrec
          split_ifs at hrec ⊢ <;> omega
      · cases ok with
        | true =>
          have hstep : rlTrace R s ((now, true) :: rest) =
              (now, s.lastResetTime, true) ::
                rlTrace R ⟨s.requestCount + 1, s.lastResetTime⟩ rest := by
            simp [rlTrace, issueCall, checkRateLimit, hA, hB]
          have hrec := ih ⟨s.requestCount + 1, s.lastResetTime⟩ T hR
          have hhead : (((now, s.lastResetTime, true) : Nat × Nat × Bool).2.1 == T &&
              ((now, s.lastResetTime, true) : Nat × Nat × Bool).2.2) = (s.lastResetTime == T) := by simp
          rw [hstep, filter_cons_length, hhead]
          simp only at hrec
          by_cases hT : s.lastResetTime = T
          · rw [if_pos (by simp [hT])]
            split_ifs at hrec ⊢ <;> omega
          · rw [if_neg (by simp [hT])]
            split_ifs at hrec ⊢ <;> omega
        | false =>
          have hstep : rlTrace R s ((now, false) :: rest) =
              (now, s.lastResetTime, false) ::
                rlTrace R ⟨s.requestCount + 0, s.lastResetTime⟩ rest := by
            simp [rlTrace, issueCall, checkRateLimit, hA, hB]
          have hrec := ih ⟨s.requestCount + 0, s.lastResetTime⟩ T hR
          have hhead : (((now, s.lastResetTime, false) : Nat × Nat × Bool).2.1 == T &&
              ((now, s.lastResetTime, false) : Nat × Nat × Bool).2.2) = false := by simp
          rw [hstep, filter_cons_length, hhead, if_neg (by simp)]
          simp only at hrec
          split_ifs at hrec ⊢ <;> omega

/-- C6 amended (threshold `R ≥ 1`): a call that arrives inside the current
60-second window with the successful-dispatch counter already at `R`
suspends until the window boundary, dispatches exactly at the boundary, and
resets the counter and window start; consequently, along any sequence of
calls, every fixed window of the limiter receives at most `R` successful
dispatches. -/
theorem checkRateLimit_window_discipline (R : Nat) (hR : 1 ≤ R) :
    (∀ (s : RLState) (now : Nat), s.lastResetTime ≤ now →
       now < s.lastResetTime + 60000 → R ≤ s.requestCount →
       checkRateLimit R s now =
         (s.lastResetTime + 60000,
          { requestCount := 0, lastResetTime := s.lastResetTime + 60000 }) ∧
       ∀ ok : Bool, s.lastResetTime + 60000 ≤ (issueCall R s now ok).1) ∧
    (∀ (s : RLState) (as : List (Nat × Bool)) (T : Nat),
       ((rlTrace R s as).filter (fun p => p.2.1 == T && p.2.2)).length ≤ R) := by
  constructor
  · intro s now h1 h2 h3
    have hA : ¬ 60000 ≤ now - s.lastResetTime := by omega
    constructor
    · simp [checkRateLimit, hA, h3]
    · intro ok
      simp [issueCall, checkRateLimit, hA, h3]
  · intro s as T
    have hbnd := rlTrace_window_bound_aux R as s T hR
    split_ifs at hbnd <;> omega

/-- Witness for C6 (amended): threshold 2, a third call arriving mid-window
with the counter at 2, and a three-call burst counted against the initial
window. -/
theorem checkRateLimit_window_discipline_witness :
    (checkRateLimit 2 ⟨2, 1000⟩ 30000 =
       (61000, { requestCount := 0, lastResetTime := 61000 }) ∧
     ∀ ok : Bool, 61000 ≤ (issueCall 2 ⟨2, 1000⟩ 30000 ok).1) ∧
    ((rlTrace 2 ⟨0, 0⟩ [(10, true), (20, true), (30, true)]).filter
        (fun p => p.2.1 == 0 && p.2.2)).length ≤ 2 :=
  ⟨(checkRateLimit_window_discipline 2 (by decide)).1 ⟨2, 1000⟩ 30000 (by decide)
      (by decide) (by decide),
   (checkRateLimit_window_discipline 2 (by decide)).2 ⟨0, 0⟩
      [(10, true), (20, true), (30, true)] 0⟩

/-! ### Claim C10 -/

theorem mem_insertByTs {x m : DbMessage} {l : List DbMessage}
    (h : x ∈ insertByTs m l) : x = m ∨ x ∈ l := by
  induction l with
  | nil =>
    simp only [insertByTs, List.mem_singleton] at h
    exact Or.inl h
  | cons y ys ih =>
    by_cases hc : m.timestamp ≤ y.timestamp
    · simpa [insertByTs, hc] using h
    · simp only [insertByTs, hc, if_false] at h
      rcases List.mem_cons.mp h with hy | hrest
      · exact Or.inr (by simp [hy])
      · rcases ih hrest with hm | hmem
        · exact Or.inl hm
        · exact Or.inr (by simp [hmem])

theorem mem_sortByTs {x : DbMessage} {l : List DbMessage}
    (h : x ∈ sortByTs l) : x ∈ l := by
  induction l with
  | nil => simp only [sortByTs] at h; exact h
  | cons y ys ih =>
    rcases mem_insertByTs (by simpa [sortByTs] using h) with hy | hrest
    · simp [hy]
    · exact List.mem_cons_of_mem _ (ih hrest)

/-- C10: every conversation aggregate produced or mutated by
`createConversation`, `generateAgentResponse`, `runConversation`, or
`loadConversation` keeps only non-private messages in its `messages`
sequence; the history handed to the adapter is the `!isPrivate` filter, so
its precondition holds at every call site; and the private thought created
by a turn is appended (with `isPrivate = true`) only to the resolved agent's
own `privateThoughts`. -/
theorem conversation_messages_public_invariant :
    (∀ (db : Db) (topic : String) (n now : Nat),
       ∀ m ∈ (AgentService.createConversation db topic n now).1.messages,
         m.isPrivate = false) ∧
    (∀ (db : Db) (cid : Nat) (conv : Conversation),
       db.loadConversation cid = some conv →
       ∀ m ∈ conv.messages, m.isPrivate = false) ∧
    (∀ conversation : Conversation,
       ∀ m ∈ publicHistory conversation, m.isPrivate = false) ∧
    (∀ (conversation : Conversation) (db : Db) (i : Nat)
       (r : Except String (Option String)) (now : Nat) (out : Conversation × Db),
       AgentService.generateAgentResponse conversation db i r now = .ok out →
       (∀ m ∈ conversation.messages, m.isPrivate = false) →
       ∀ m ∈ out.1.messages, m.isPrivate = false) ∧
    (∀ (conversation : Conversation) (db : Db) (i : Nat)
       (r : Except String (Option String)) (now : Nat) (out : Conversation × Db)
       (hlt : i < conversation.agents.length),
       AgentService.generateAgentResponse conversation db i r now = .ok out →
       ∃ priv : Message, priv.isPrivate = true ∧
         priv.agentId = some conversation.agents[i].id ∧
         out.1.agents = conversation.agents.set i
           { conversation.agents[i] with
             privateThoughts := conversation.agents[i].privateThoughts ++ [priv] }) ∧
    (∀ (oracle : Nat → Except String (Option String)) (times : Nat → Nat)
       (conversation : Conversation) (db : Db) (t : Nat) (out : Conversation × Db),
       AgentService.runConversation oracle times conversation db t = .ok out →
       (∀ m ∈ conversation.messages, m.isPrivate = false) →
       ∀ m ∈ out.1.messages, m.isPrivate = false) := by
  refine ⟨?_, ?_, ?_, ?_, ?_, ?_⟩
  · intro db topic n now m hm
    rw [createConversation_spec] at hm
    simp at hm
    simp [hm]
  · intro db cid conv hload m hm
    unfold Db.loadConversation at hload
    cases hfind : db.getConversation cid with
    | none => rw [hfind] at hload; cases hload
    | some c =>
      rw [hfind] at hload
      have hconv := Option.some.inj hload
      rw [← hconv] at hm
      simp only [Db.getPublicMessagesForConversation] at hm
      rcases List.mem_map.mp hm with ⟨row, hrow, hrowm⟩
      have hrowf := mem_sortByTs hrow
      have hcond := (List.mem_filter.mp hrowf).2
      rw [← hrowm]
      simp only [dbMessageToMessage]
      simp only [Bool.and_eq_true, Bool.not_eq_eq_eq_not, Bool.not_true] at hcond
      exact hcond.2
  · intro conversation m hm
    have := (List.mem_filter.mp hm).2
    simpa using this
  · intro conversation db i r now out hok hinv m hm
    by_cases hi : i < conversation.agents.length
    · rw [generateAgentResponse_ok conversation db i r now hi] at hok
      have hpair := Except.ok.inj hok
      rw [← hpair] at hm
      simp only at hm
      rcases List.mem_append.mp hm with hold | hnew
      · exact hinv m hold
      · simp only [List.mem_singleton] at hnew
        rw [hnew]
    · rw [generateAgentResponse_index_not_found conversation db i r now (by omega)] at hok
      cases hok
  · intro conversation db i r now out hlt hok
    rw [generateAgentResponse_ok conversation db i r now hlt] at hok
    have hpair := Except.ok.inj hok
    refine ⟨{ id := db.nextId + 1, conversationId := conversation.id
              agentId := some conversation.agents[i].id
              agentName := some conversation.agents[i].name
              content := (LlmService.generateAgentResponse conversation.agents[i].name
                conversation.agents[i].systemPrompt (publicHistory conversation)
                conversation.agents[i].privateThoughts r).privateThoughts
              isPrivate := true, timestamp := now }, rfl, rfl, ?_⟩
    rw [← hpair]
  · intro oracle times conversation db t out hok hinv m hm
    obtain ⟨conv2, db2, pubs, rows, hrun, hids, hmsgs, hagmap, htsmap, hpriv, hdbm, hrc1, hrc2⟩ :=
      runTurnsList_spec oracle times conversation.agents.length (List.range t)
        (conversation, db) rfl
    rw [AgentService.runConversation] at hok
    rw [hrun] at hok
    have hpair := Except.ok.inj hok
    rw [← hpair] at hm
    simp only at hm
    rw [hmsgs] at hm
    rcases List.mem_append.mp hm with hold | hnew
    · exact hinv m hold
    · exact hpriv m hnew

/-- Witness for C10: the seed message of the loaded witness conversation is
public. -/
theorem conversation_messages_public_invariant_witness : msgW.isPrivate = false :=
  conversation_messages_public_invariant.2.1 dbW 0 convW (by decide) msgW (by decide)
